import Mathlib

/-!
Shallow embedding of the winboat runtime/configuration core.

The definitions below are translated from the TypeScript sources of the
repository (container backends, the QEMU native backend, the capability
resolver, and the versioned configuration engine).  JavaScript values that
matter to the verified claims are modelled explicitly:

* a value that may be `undefined` in JavaScript is an `Option`;
* a JavaScript exception path is an `Except` error or an explicit catch
  branch, exactly where the source has `try`/`catch`;
* JSON numbers are modelled as `Int` (the configuration engine only ever
  stores and tests integral numbers);
* the file system and process table touched by the native backend are an
  explicit state record, and the externally visible side effects of an
  operation are recorded as an action trace.
-/

namespace Winboat

/-!
JavaScript string primitives, implemented over character lists so that
every definition evaluates inside the kernel.  `toLowerCase` is modelled
on the ASCII range (every token the code compares is ASCII) and `trim` on
the common whitespace characters.
-/

/-- Whitespace recognized by `String.prototype.trim`. -/
def jsWhitespace (c : Char) : Bool :=
  c == ' ' || c == '\t' || c == '\n' || c == '\r' ||
    c.toNat == 11 || c.toNat == 12 || c.toNat == 160 || c.toNat == 65279

def jsTrimList (cs : List Char) : List Char :=
  ((cs.dropWhile jsWhitespace).reverse.dropWhile jsWhitespace).reverse

/-- JavaScript `trim()`. -/
def jsTrim (s : String) : String :=
  String.mk (jsTrimList s.toList)

/-- JavaScript `toLowerCase()` on the ASCII range. -/
def jsToLower (s : String) : String :=
  String.mk (s.toList.map fun c =>
    if 65 ≤ c.toNat && c.toNat ≤ 90 then Char.ofNat (c.toNat + 32) else c)

/-- Splitting on a one-character separator, as JavaScript `split` does
(adjacent separators produce empty pieces, and the result is never
empty). -/
def jsSplitAux (sep : Char) : List Char → List Char → List (List Char)
  | [], acc => [acc.reverse]
  | c :: cs, acc =>
    if c == sep then acc.reverse :: jsSplitAux sep cs []
    else jsSplitAux sep cs (c :: acc)

def jsSplit (sep : Char) (s : String) : List String :=
  (jsSplitAux sep s.toList []).map String.mk

def listIsPrefix : List Char → List Char → Bool
  | [], _ => true
  | _ :: _, [] => false
  | a :: as, b :: bs => a == b && listIsPrefix as bs

def listIncludes (sub : List Char) : List Char → Bool
  | [] => sub.isEmpty
  | c :: cs => listIsPrefix sub (c :: cs) || listIncludes sub cs

/-- JavaScript `String.prototype.includes`. -/
def strIncludes (s sub : String) : Bool :=
  listIncludes sub.toList s.toList

/-- Closed status set shared by every backend
(`ContainerStatus` in containers/container.ts, `RuntimeStatus` in the spec). -/
inductive ContainerStatus where
  | CREATED
  | RUNNING
  | PAUSED
  | EXITED
  | UNKNOWN
deriving DecidableEq, Repr

/-- The literal `statusMap` of `DockerContainer.getStatus` (docker.ts). -/
def dockerStatusMap : List (String × ContainerStatus) :=
  [ ("created", ContainerStatus.CREATED)
  , ("restarting", ContainerStatus.UNKNOWN)
  , ("removing", ContainerStatus.UNKNOWN)
  , ("running", ContainerStatus.RUNNING)
  , ("paused", ContainerStatus.PAUSED)
  , ("exited", ContainerStatus.EXITED)
  , ("dead", ContainerStatus.UNKNOWN) ]

/-- The literal `statusMap` of `PodmanContainer.getStatus` (podman.ts). -/
def podmanStatusMap : List (String × ContainerStatus) :=
  [ ("created", ContainerStatus.CREATED)
  , ("restarting", ContainerStatus.UNKNOWN)
  , ("initialized", ContainerStatus.UNKNOWN)
  , ("removing", ContainerStatus.UNKNOWN)
  , ("stopping", ContainerStatus.EXITED)
  , ("stopped", ContainerStatus.EXITED)
  , ("running", ContainerStatus.RUNNING)
  , ("paused", ContainerStatus.PAUSED)
  , ("exited", ContainerStatus.EXITED)
  , ("dead", ContainerStatus.UNKNOWN) ]

/-- JavaScript property read `statusMap[status]`: the mapped value, or
`none` for `undefined` when the raw status is not a key of the map. -/
def statusMapLookup (m : List (String × ContainerStatus)) (raw : String) :
    Option ContainerStatus :=
  (m.find? fun p => p.1 == raw).map fun p => p.2

/-- `DockerContainer.getStatus`: the `docker inspect` call either throws
(modelled as `Except.error`, caught and turned into `UNKNOWN`) or yields a
stdout string whose trimmed value is looked up in the status map.  The
result type `Option ContainerStatus` reflects the actual JavaScript value:
`none` is the `undefined` produced by indexing the map with an unmapped
raw status. -/
def dockerGetStatus (inspectResult : Except String String) : Option ContainerStatus :=
  match inspectResult with
  | Except.error _ => some ContainerStatus.UNKNOWN
  | Except.ok stdout => statusMapLookup dockerStatusMap (jsTrim stdout)

/-- `PodmanContainer.getStatus`, same structure as the docker variant. -/
def podmanGetStatus (inspectResult : Except String String) : Option ContainerStatus :=
  match inspectResult with
  | Except.error _ => some ContainerStatus.UNKNOWN
  | Except.ok stdout => statusMapLookup podmanStatusMap (jsTrim stdout)

/-- Runtime identities (`ContainerRuntimes` enum).  The snapshot of
containers/common.ts declares `DOCKER = "Docker"` and `PODMAN = "Podman"`;
the `QEMU_NATIVE` member is referenced throughout the sources but its
declaration is missing from the snapshot, so its token is modelled from the
repository docs (feature-flags rollout doc).  No claim depends on the exact
token string of `QEMU_NATIVE`. -/
inductive RuntimeKind where
  | DOCKER
  | PODMAN
  | QEMU_NATIVE
deriving DecidableEq, Repr

/-- The string value each enum member carries. -/
def RuntimeKind.token : RuntimeKind → String
  | RuntimeKind.DOCKER => "Docker"
  | RuntimeKind.PODMAN => "Podman"
  | RuntimeKind.QEMU_NATIVE => "QEMU Native (HVF)"

/-- Ambient host facts read by the module-level constants and the feature
flag helpers: `process.platform`, `process.arch`, and the two gating
environment variables (absent variables are `none`). -/
structure HostEnv where
  platform : String
  arch : String
  envMacNativeFlag : Option String
  envLegacyQemuFlag : Option String

/-- `envFlagEnabled` (feature-flags.ts): `(process.env[name] ?? "")`
trimmed, lowercased, and compared against the truthy tokens. -/
def envFlagEnabled (value : Option String) : Bool :=
  let token := jsToLower (jsTrim (value.getD ""))
  token == "1" || token == "true" || token == "yes"

/-- `isExperimentalMacNativeRuntimeEnabled` (feature-flags.ts). -/
def isExperimentalMacNativeRuntimeEnabled (env : HostEnv) : Bool :=
  envFlagEnabled env.envMacNativeFlag || envFlagEnabled env.envLegacyQemuFlag

/-- `HostProfile` record (runtimes capability module). -/
structure HostProfile where
  platform : String
  arch : String
  isLinux : Bool
  isMacOS : Bool
  isAppleSilicon : Bool
  virtualizationLabel : String
  virtualizationHelpURL : String
  dockerComposeGuideURL : String
  dockerDaemonGuideURL : String
  podmanComposeGuideURL : String
  qemuInstallGuideURL : String
  freeRDPInstallGuideURL : String
deriving Repr

/-- `getHostProfile()`: derives the profile from the ambient host facts
(IS_LINUX, IS_MACOS and IS_APPLE_SILICON are the module constants of
constants.ts). -/
def getHostProfile (env : HostEnv) : HostProfile :=
  let isLinux := env.platform == "linux"
  let isMacOS := env.platform == "darwin"
  { platform := env.platform
  , arch := env.arch
  , isLinux := isLinux
  , isMacOS := isMacOS
  , isAppleSilicon := isMacOS && env.arch == "arm64"
  , virtualizationLabel :=
      if isLinux then "Virtualization (KVM) enabled" else "Virtualization (Hypervisor) enabled"
  , virtualizationHelpURL :=
      if isLinux then
        "https://duckduckgo.com/?t=h_&q=how+to+enable+virtualization+in+%3Cmotherboard+brand%3E+bios&ia=web"
      else "https://support.apple.com/guide/security/virtualization-security-sec7f7da5f4/web"
  , dockerComposeGuideURL :=
      if isLinux then "https://docs.docker.com/compose/install/#plugin-linux-only"
      else "https://docs.docker.com/compose/install/"
  , dockerDaemonGuideURL :=
      if isLinux then "https://docs.docker.com/config/daemon/start/"
      else "https://docs.docker.com/desktop/setup/install/mac-install/"
  , podmanComposeGuideURL :=
      "https://github.com/containers/podman-compose?tab=readme-ov-file#installation"
  , qemuInstallGuideURL := "https://formulae.brew.sh/formula/qemu"
  , freeRDPInstallGuideURL :=
      if isLinux then "https://github.com/FreeRDP/FreeRDP/wiki/PreBuilds"
      else "https://formulae.brew.sh/formula/freerdp" }

/-- `getSupportedContainerRuntimes()` (containers/common.ts): `[DOCKER]` on
darwin, otherwise every member of the `ContainerRuntimes` enum. -/
def getSupportedContainerRuntimes (env : HostEnv) : List RuntimeKind :=
  if env.platform == "darwin" then [RuntimeKind.DOCKER]
  else [RuntimeKind.DOCKER, RuntimeKind.PODMAN, RuntimeKind.QEMU_NATIVE]

/-- `getSupportedRuntimeKinds` (runtimes/common.ts) is an alias. -/
def getSupportedRuntimeKinds (env : HostEnv) : List RuntimeKind :=
  getSupportedContainerRuntimes env

/-- `getRuntimeInstallGuideURL` (capability module). -/
def getRuntimeInstallGuideURL (runtime : RuntimeKind) (hostProfile : HostProfile) : String :=
  if runtime == RuntimeKind.PODMAN then "https://podman.io/docs/installation"
  else if runtime == RuntimeKind.QEMU_NATIVE then hostProfile.qemuInstallGuideURL
  else if hostProfile.isLinux then "https://docs.docker.com/engine/install/"
  else "https://docs.docker.com/desktop/setup/install/mac-install/"

/-- `getUnsupportedReason` (capability module).  The template string of the
feature-flag message is written out with the flag names interpolated. -/
def getUnsupportedReason (env : HostEnv) (runtime : RuntimeKind)
    (hostProfile : HostProfile) : Option String :=
  if runtime == RuntimeKind.PODMAN && !hostProfile.isLinux then
    some "Podman runtime is currently supported only on Linux hosts."
  else if runtime == RuntimeKind.QEMU_NATIVE then
    if !hostProfile.isMacOS || !hostProfile.isAppleSilicon then
      some "QEMU Native runtime currently requires macOS on Apple Silicon."
    else if !isExperimentalMacNativeRuntimeEnabled env then
      some "QEMU Native runtime is currently hidden behind WINBOAT_EXPERIMENTAL_MAC_NATIVE_RUNTIME=1 (legacy: WINBOAT_EXPERIMENTAL_QEMU_NATIVE=1)."
    else none
  else none

/-- `RuntimeCapabilities` record (capability module). -/
structure RuntimeCapabilities where
  runtime : RuntimeKind
  supportedOnHost : Bool
  experimental : Bool
  supportsCompose : Bool
  supportsUsbPassthrough : Bool
  supportsQmp : Bool
  supportsAutoStart : Bool
  supportsGuidedInstall : Bool
  guestArchitecture : String
  installGuideURL : String
  unsupportedReason : Option String
  guidedInstallReason : Option String
  usbPassthroughReason : Option String
  autoStartReason : Option String
deriving Repr

/-- `getPreferredGuestArchitecture` (runtimes/common.ts). -/
def getPreferredGuestArchitecture (type_ : RuntimeKind) : String :=
  if type_ == RuntimeKind.QEMU_NATIVE then "arm64" else "amd64"

/-- `getRuntimeCapabilities` (capability module): builds the base record
and layers the per-runtime overrides of the `switch` on top. -/
def getRuntimeCapabilities (env : HostEnv) (runtime : RuntimeKind)
    (hostProfile : HostProfile) : RuntimeCapabilities :=
  let supportedOnHost := (getSupportedRuntimeKinds env).contains runtime
  let guestArchitecture := getPreferredGuestArchitecture runtime
  let base : RuntimeCapabilities :=
    { runtime := runtime
    , supportedOnHost := supportedOnHost
    , experimental := false
    , supportsCompose := true
    , supportsUsbPassthrough := false
    , supportsQmp := true
    , supportsAutoStart := true
    , supportsGuidedInstall := true
    , guestArchitecture := guestArchitecture
    , installGuideURL := getRuntimeInstallGuideURL runtime hostProfile
    , unsupportedReason := getUnsupportedReason env runtime hostProfile
    , guidedInstallReason := none
    , usbPassthroughReason := none
    , autoStartReason := none }
  match runtime with
  | RuntimeKind.DOCKER =>
    { base with
      supportsCompose := true
    , supportsUsbPassthrough := hostProfile.isLinux
    , usbPassthroughReason :=
        if hostProfile.isLinux then none
        else some "USB passthrough is currently supported only on Linux hosts." }
  | RuntimeKind.PODMAN =>
    { base with
      supportsCompose := true
    , supportsUsbPassthrough := false
    , usbPassthroughReason :=
        some "USB passthrough is not yet supported while using Podman as the runtime." }
  | RuntimeKind.QEMU_NATIVE =>
    { base with
      experimental := true
    , supportsCompose := false
    , supportsUsbPassthrough := false
    , supportsAutoStart := false
    , supportsGuidedInstall := false
    , usbPassthroughReason := some "USB passthrough is not yet available for QEMU Native runtime."
    , autoStartReason := some "Auto-start is not available for QEMU Native runtime."
    , guidedInstallReason :=
        some "Guided Windows installation is not available for QEMU Native runtime yet (manual flow only)." }

/-!
Native QEMU backend (QemuNativeContainer).  The file-system and process
facts it manipulates are an explicit state; the externally visible side
effects are recorded as an action trace.
-/

/-- Externally visible side effects of the native backend. -/
inductive QemuAction where
  | spawn (pid : Int)
  | writePidFile (pid : Int)
  | removePidFile
  | sigterm (pid : Int)
  | sigkill (pid : Int)
deriving DecidableEq, Repr

/-- State touched by the native backend.  `pidFile` is `none` when the PID
file is absent, `some none` when it exists but its content does not parse
to a number (`Number.parseInt` yields `NaN`), and `some (some p)` when it
contains the number `p`.  `alive p` models `process.kill(p, 0)`
succeeding. -/
structure QemuState where
  pidFile : Option (Option Int)
  alive : Int → Bool
  composeFileExists : Bool
  firmwareVarsExists : Bool
  diskExists : Bool

/-- `QemuNativeContainer.#readPid`: absent file or a content that is `NaN`
or not strictly positive yields `null`. -/
def qemuReadPid (s : QemuState) : Option Int :=
  match s.pidFile with
  | none => none
  | some none => none
  | some (some p) => if p ≤ 0 then none else some p

/-- `QemuNativeContainer.getStatus`: RUNNING when the PID file references a
live process, EXITED otherwise. -/
def qemuGetStatus (s : QemuState) : ContainerStatus :=
  match qemuReadPid s with
  | some pid => if s.alive pid then ContainerStatus.RUNNING else ContainerStatus.EXITED
  | none => ContainerStatus.EXITED

/-- Outcome of resolving binaries/firmware and spawning, which are external
to the state: `resolveOk` is whether `#resolveRuntimeState` finds the QEMU
binaries and EDK2 firmware files, `childPid` the PID the OS assigns to the
spawned process. -/
structure QemuStartEnv where
  resolveOk : Bool
  childPid : Int

/-- `QemuNativeContainer.#startVM`.  Returns the new state together with
the trace of externally visible actions; `Except.error` models the thrown
missing-prerequisite error.  The final `this.port()` call only refreshes
the cached port mappings and is not part of the modelled state. -/
def qemuStartVM (env : QemuStartEnv) (s : QemuState) :
    Except String (QemuState × List QemuAction) :=
  if qemuGetStatus s == ContainerStatus.RUNNING then
    Except.ok (s, [])
  else
    let s1 := if s.composeFileExists then s else { s with composeFileExists := true }
    if !env.resolveOk then
      Except.error "Could not resolve executable or firmware from candidates"
    else
      let s2 := { s1 with firmwareVarsExists := true, diskExists := true }
      let s3 := { s2 with alive := fun q => if q == env.childPid then true else s2.alive q }
      let s4 := { s3 with pidFile := some (some env.childPid) }
      Except.ok (s4, [QemuAction.spawn env.childPid, QemuAction.writePidFile env.childPid])

/-- Behaviour of the target process under the stop signals: `termKillOk`
is whether `process.kill(pid, "SIGTERM")` does not throw (the process
exists and is signalable), `diesWithinGrace` whether the process exits
before the 5000 ms grace timeout elapses. -/
structure QemuStopEnv where
  termKillOk : Bool
  diesWithinGrace : Bool

/-- `killPidWithGrace`: SIGTERM (an exception returns immediately), poll
liveness at 100 ms intervals up to the timeout, SIGKILL if still alive. -/
def killPidWithGrace (env : QemuStopEnv) (pid : Int) : List QemuAction :=
  if !env.termKillOk then []
  else if env.diesWithinGrace then [QemuAction.sigterm pid]
  else [QemuAction.sigterm pid, QemuAction.sigkill pid]

/-- `QemuNativeContainer.#stopVM`: no-op when `#readPid` yields `null`;
otherwise graceful-then-forced termination followed by removing the PID
file (guarded by `existsSync`, which holds here since the PID was read). -/
def qemuStopVM (env : QemuStopEnv) (s : QemuState) : QemuState × List QemuAction :=
  match qemuReadPid s with
  | none => (s, [])
  | some pid =>
    let acts := killPidWithGrace env pid
    let s1 : QemuState :=
      { s with
        alive := fun q => if q == pid then false else s.alive q,
        pidFile := none }
    (s1, acts ++ [QemuAction.removePidFile])

/-- `QemuNativeContainer.remove`: stop the VM, then remove the PID file if
it still exists (`rmSync` with `force`). -/
def qemuRemove (env : QemuStopEnv) (s : QemuState) : QemuState × List QemuAction :=
  let r := qemuStopVM env s
  if r.1.pidFile.isSome then
    ({ r.1 with pidFile := none }, r.2 ++ [QemuAction.removePidFile])
  else (r.1, r.2)

/-!
`remove()` on the engine backends (docker.ts / podman.ts): the single
`execFileAsync` call is wrapped in `try`/`catch` and the catch only logs.
The exec outcome is the parameter; the result is `Except.ok logs` exactly
when no exception escapes the method.
-/

/-- `DockerContainer.remove`. -/
def dockerRemove (execOutcome : Except String String) : Except String (List String) :=
  match execOutcome with
  | Except.ok _ => Except.ok []
  | Except.error e =>
    Except.ok ["Failed to remove container 'WinBoat'", e]

/-- `PodmanContainer.remove`, structurally identical to the docker one. -/
def podmanRemove (execOutcome : Except String String) : Except String (List String) :=
  match execOutcome with
  | Except.ok _ => Except.ok []
  | Except.error e =>
    Except.ok ["Failed to remove container 'WinBoat'", e]

/-!
Versioned configuration engine (config.ts).  JavaScript objects are
modelled as association lists of string keys and JSON-like values; the
property operations below reproduce JavaScript object semantics (property
set keeps the insertion position of an existing key and appends a new one,
spread overrides earlier entries in place).
-/

/-- Digit value of a character under a radix, as JS `parseInt` accepts. -/
def charDigitVal (radix : Nat) (c : Char) : Option Nat :=
  let v : Option Nat :=
    if 48 ≤ c.toNat && c.toNat ≤ 57 then some (c.toNat - 48)
    else if 97 ≤ c.toNat && c.toNat ≤ 122 then some (c.toNat - 97 + 10)
    else if 65 ≤ c.toNat && c.toNat ≤ 90 then some (c.toNat - 65 + 10)
    else none
  match v with
  | some d => if d < radix then some d else none
  | none => none

/-- Longest digit prefix accumulated into a number; `none` when the prefix
is empty (JS `NaN`). -/
def jsDigitsPrefix (radix : Nat) : List Char → Nat → Bool → Option Nat
  | [], acc, seen => if seen then some acc else none
  | c :: cs, acc, seen =>
    match charDigitVal radix c with
    | some d => jsDigitsPrefix radix cs (acc * radix + d) true
    | none => if seen then some acc else none

/-- JavaScript `parseInt`: leading whitespace trimmed, optional sign, then
the longest valid digit prefix; `none` models `NaN`.  With `autoRadix`
(no radix argument) a `0x`/`0X` prefix switches to base 16. -/
def jsParseInt (autoRadix : Bool) (s : String) : Option Int :=
  let cs := jsTrimList s.toList
  let signSplit : Bool × List Char :=
    match cs with
    | '-' :: rest => (true, rest)
    | '+' :: rest => (false, rest)
    | _ => (false, cs)
  let radixSplit : Nat × List Char :=
    if autoRadix then
      match signSplit.2 with
      | '0' :: 'x' :: rest => (16, rest)
      | '0' :: 'X' :: rest => (16, rest)
      | _ => (10, signSplit.2)
    else (10, signSplit.2)
  match jsDigitsPrefix radixSplit.1 radixSplit.2 0 false with
  | none => none
  | some n => some (if signSplit.1 then -(n : Int) else (n : Int))

/-- `WinboatVersion` (config.ts): the parsed pieces of a version token. -/
structure WinboatVersion where
  versionToken : String
  generation : Option Int
  major : Option Int
  minor : Option Int
  alpha : Bool
deriving DecidableEq, Repr

/-- The `WinboatVersion` constructor: split the token on `-`, split the
first tag on `.`, `parseInt` each piece (any `NaN` throws, modelled as
`Except.error`), and flag `alpha` when the second tag contains "alpha". -/
def WinboatVersion.parse (versionToken : String) : Except Unit WinboatVersion :=
  let versionTags := jsSplit '-' versionToken
  let parts := jsSplit '.' (versionTags.headD "")
  let nums := parts.map (jsParseInt true)
  if nums.any Option.isNone then Except.error ()
  else
    let numbers := nums.map fun o => o.getD 0
    Except.ok
      { versionToken := versionToken
      , generation := numbers[0]?
      , major := numbers[1]?
      , minor := numbers[2]?
      , alpha :=
          match versionTags[1]? with
          | some tag => strIncludes tag "alpha"
          | none => false }

/-- Modelled from the spec: the build-time version token injected as
`import.meta.env.VITE_APP_VERSION` is external to the sources, so an
arbitrary well-formed token stands in for it.  No claim depends on its
value. -/
def viteAppVersion : String := "0.8.6"

/-- `new WinboatVersion(import.meta.env.VITE_APP_VERSION)` evaluated at
module load.  The error branch is unreachable for a well-formed token. -/
def currentVersion : WinboatVersion :=
  match WinboatVersion.parse viteAppVersion with
  | Except.ok v => v
  | Except.error _ =>
    { versionToken := viteAppVersion, generation := none, major := none,
      minor := none, alpha := false }

/-- JSON-like runtime values of the configuration engine.  `version` is a
`WinboatVersion` class instance (these live in the in-memory config after
normalization). -/
inductive JVal where
  | num (n : Int)
  | str (s : String)
  | bool (b : Bool)
  | null
  | arr (xs : List JVal)
  | obj (fields : List (String × JVal))
  | version (v : WinboatVersion)

/-- Structural equality of values, standing in for the
`JSON.stringify`-fingerprint comparison of the read path. -/
def JVal.beq : JVal → JVal → Bool
  | JVal.num a, JVal.num b => a == b
  | JVal.str a, JVal.str b => a == b
  | JVal.bool a, JVal.bool b => a == b
  | JVal.null, JVal.null => true
  | JVal.version a, JVal.version b => a == b
  | JVal.arr [], JVal.arr [] => true
  | JVal.arr (x :: xs), JVal.arr (y :: ys) =>
    JVal.beq x y && JVal.beq (JVal.arr xs) (JVal.arr ys)
  | JVal.obj [], JVal.obj [] => true
  | JVal.obj ((k, v) :: xs), JVal.obj ((l, w) :: ys) =>
    k == l && JVal.beq v w && JVal.beq (JVal.obj xs) (JVal.obj ys)
  | _, _ => false

instance : BEq JVal := ⟨JVal.beq⟩

/-- A JavaScript object: keys with values, in insertion order. -/
abbrev ConfigRecord := List (String × JVal)

/-- Property read `o[k]`; `none` is `undefined`. -/
def getKey (r : ConfigRecord) (k : String) : Option JVal :=
  (r.find? fun p => p.1 == k).map fun p => p.2

/-- The `in` operator / key presence. -/
def hasKey (r : ConfigRecord) (k : String) : Bool :=
  (r.find? fun p => p.1 == k).isSome

/-- Property write `o[k] = v`: updates an existing key in place, appends a
new one. -/
def setKey (r : ConfigRecord) (k : String) (v : JVal) : ConfigRecord :=
  if hasKey r k then r.map fun p => if p.1 == k then (k, v) else p
  else r ++ [(k, v)]

/-- `delete o[k]`. -/
def delKey (r : ConfigRecord) (k : String) : ConfigRecord :=
  r.filter fun p => !(p.1 == k)

/-- Object spread `{...a, ...b}`: keys of `a` keep their positions (values
overridden by `b` where present), keys only in `b` are appended in order. -/
def spreadMerge (a b : ConfigRecord) : ConfigRecord :=
  (a.map fun p => (p.1, (getKey b p.1).getD p.2)) ++
    b.filter fun p => !(hasKey a p.1)

/-- `CONFIG_SCHEMA_VERSION` (config.ts). -/
def CONFIG_SCHEMA_VERSION : Int := 2

/-- The token map of `normalizeRuntimeKind`, keys already lowercased in
insertion order (dynamic keys collapse onto the literal ones).  Prototype
chain lookups of exotic keys are modelled as misses. -/
def runtimeTokenMap : List (String × RuntimeKind) :=
  [ ("docker", RuntimeKind.DOCKER)
  , ("podman", RuntimeKind.PODMAN)
  , ("qemu-native", RuntimeKind.QEMU_NATIVE)
  , ("qemu_native", RuntimeKind.QEMU_NATIVE)
  , ("qemunative", RuntimeKind.QEMU_NATIVE)
  , ("qemu native (hvf)", RuntimeKind.QEMU_NATIVE) ]

/-- `normalizeRuntimeKind` (config.ts): a non-string value falls back,
otherwise the trimmed lowercased token is looked up. -/
def normalizeRuntimeKind (value : Option JVal) (fallback : RuntimeKind) : RuntimeKind :=
  match value with
  | some (JVal.str s) =>
    let token := jsToLower (jsTrim s)
    match runtimeTokenMap.find? fun p => p.1 == token with
    | some p => p.2
    | none => fallback
  | _ => fallback

/-- `normalizeGuestArchitecture` (config.ts). -/
def normalizeGuestArchitecture (value : Option JVal) (runtime : RuntimeKind) : String :=
  match value with
  | some (JVal.str s) =>
    if s == "amd64" || s == "arm64" then s else getPreferredGuestArchitecture runtime
  | _ => getPreferredGuestArchitecture runtime

/-- `normalizeVersionToken` (config.ts): a class instance passes through,
a parseable string is parsed, anything else falls back. -/
def normalizeVersionToken (value : Option JVal) (fallback : WinboatVersion) : WinboatVersion :=
  match value with
  | some (JVal.version v) => v
  | some (JVal.str s) =>
    match WinboatVersion.parse s with
    | Except.ok v => v
    | Except.error _ => fallback
  | _ => fallback

/-- `normalizeVersionData` (config.ts): any value that is not a plain
non-null non-array object (a class instance also passes the `typeof`
check but carries no `previous`/`current` properties) yields the
current-version pair. -/
def normalizeVersionData (value : Option JVal) : JVal :=
  match value with
  | some (JVal.obj fields) =>
    JVal.obj
      [ ("previous", JVal.version (normalizeVersionToken (getKey fields "previous") currentVersion))
      , ("current", JVal.version (normalizeVersionToken (getKey fields "current") currentVersion)) ]
  | _ =>
    JVal.obj
      [ ("previous", JVal.version currentVersion)
      , ("current", JVal.version currentVersion) ]

/-- `createDefaultConfig()` (config.ts), keys in source order. -/
def createDefaultConfig : ConfigRecord :=
  [ ("scale", JVal.num 100)
  , ("scaleDesktop", JVal.num 100)
  , ("smartcardEnabled", JVal.bool false)
  , ("rdpMonitoringEnabled", JVal.bool false)
  , ("passedThroughDevices", JVal.arr [])
  , ("customApps", JVal.arr [])
  , ("experimentalFeatures", JVal.bool false)
  , ("advancedFeatures", JVal.bool false)
  , ("multiMonitor", JVal.str "None")
  , ("rdpArgs", JVal.arr [])
  , ("disableAnimations", JVal.bool false)
  , ("containerRuntime", JVal.str RuntimeKind.DOCKER.token)
  , ("guestArch", JVal.str (getPreferredGuestArchitecture RuntimeKind.DOCKER))
  , ("schemaVersion", JVal.num CONFIG_SCHEMA_VERSION)
  , ("versionData", JVal.obj
      [ ("previous", JVal.version currentVersion)
      , ("current", JVal.version currentVersion) ])
  , ("appsSortOrder", JVal.str "name") ]

/-- `configKeys = Object.keys(defaultConfig)`. -/
def configKeys : List String := createDefaultConfig.map fun p => p.1

/-- `inferSchemaVersion` (config.ts).  JSON numbers are modelled as `Int`,
so the `Number.isInteger` guard is always satisfied. -/
def inferSchemaVersion (c : ConfigRecord) : Int :=
  match getKey c "schemaVersion" with
  | some (JVal.num n) =>
    if 0 ≤ n then n
    else if hasKey c "guestArch" then 1 else 0
  | _ => if hasKey c "guestArch" then 1 else 0

/-- `LEGACY_RUNTIME_KEYS` (config.ts). -/
def legacyRuntimeKeys : List String := ["runtime", "container", "containerType"]

/-- The legacy-key scan of `migrateConfigV0ToV1`:
`LEGACY_RUNTIME_KEYS.map(key => configObj[key]).find(v => v !== undefined)`. -/
def firstDefinedLegacy (c : ConfigRecord) : Option JVal :=
  ((legacyRuntimeKeys.map (getKey c)).find? Option.isSome).join

/-- The runtime value picked by `migrateConfigV0ToV1`:
`configObj.containerRuntime ?? <legacy scan>` (nullish coalescing fires on
both `undefined` and `null`). -/
def v0RuntimeValue (c : ConfigRecord) : Option JVal :=
  match getKey c "containerRuntime" with
  | none => firstDefinedLegacy c
  | some JVal.null => firstDefinedLegacy c
  | some v => some v

/-- `migrateConfigV0ToV1` (config.ts). -/
def migrateConfigV0ToV1 (c : ConfigRecord) : ConfigRecord :=
  let runtimeValue := v0RuntimeValue c
  let c1 := setKey c "containerRuntime"
    (JVal.str (normalizeRuntimeKind runtimeValue RuntimeKind.DOCKER).token)
  let c2 := delKey (delKey (delKey c1 "runtime") "container") "containerType"
  setKey c2 "schemaVersion" (JVal.num 1)

/-- `migrateConfigV1ToV2` (config.ts). -/
def migrateConfigV1ToV2 (c : ConfigRecord) : ConfigRecord :=
  let runtime := normalizeRuntimeKind (getKey c "containerRuntime") RuntimeKind.DOCKER
  let c1 := setKey c "containerRuntime" (JVal.str runtime.token)
  let c2 := setKey c1 "guestArch"
    (JVal.str (normalizeGuestArchitecture (getKey c1 "guestArch") runtime))
  setKey c2 "schemaVersion" (JVal.num 2)

/-- `normalizeConfigObject` (config.ts): defaults spread under the config,
then the four normalized fields written on top (each key already exists in
the defaults, so positions are stable). -/
def normalizeConfigObject (c : ConfigRecord) (schemaVersion : Int) : ConfigRecord :=
  let defaults := createDefaultConfig
  let runtime := normalizeRuntimeKind (getKey c "containerRuntime") RuntimeKind.DOCKER
  setKey (setKey (setKey (setKey (spreadMerge defaults c)
      "containerRuntime" (JVal.str runtime.token))
      "guestArch" (JVal.str (normalizeGuestArchitecture (getKey c "guestArch") runtime)))
      "schemaVersion" (JVal.num schemaVersion))
      "versionData" (normalizeVersionData (getKey c "versionData"))

/-- `ConfigMigrationResult` (config.ts). -/
structure ConfigMigrationResult where
  migratedConfig : ConfigRecord
  wasMigrated : Bool
  startedFrom : Int

/-- The `while` loop of `migrateVersionedConfig`: step while below the
current version, re-inferring the schema version after each step; an
intermediate version without a transform throws.  The fuel only bounds the
loop for totality; it is never exhausted (the steps pin the inferred
version to 1 and then 2). -/
def migrateLoop : Nat → ConfigRecord → Int → Except String (ConfigRecord × Int)
  | 0, _, _ => Except.error "migration loop did not terminate"
  | fuel + 1, c, v =>
    if v < CONFIG_SCHEMA_VERSION then
      match v with
      | 0 =>
        let c1 := migrateConfigV0ToV1 c
        migrateLoop fuel c1 (inferSchemaVersion c1)
      | 1 =>
        let c1 := migrateConfigV1ToV2 c
        migrateLoop fuel c1 (inferSchemaVersion c1)
      | _ => Except.error "No migration step available for schema version"
    else Except.ok (c, v)

/-- `migrateVersionedConfig` (config.ts).  A config from a newer release is
normalized at its own (higher) version and flagged as a non-migration;
otherwise the ordered chain runs (`structuredClone` is the identity on
pure values). -/
def migrateVersionedConfig (c : ConfigRecord) : Except String ConfigMigrationResult :=
  let startingSchemaVersion := inferSchemaVersion c
  if CONFIG_SCHEMA_VERSION < startingSchemaVersion then
    Except.ok
      { migratedConfig := normalizeConfigObject c startingSchemaVersion
      , wasMigrated := false
      , startedFrom := startingSchemaVersion }
  else
    match migrateLoop 4 c startingSchemaVersion with
    | Except.error e => Except.error e
    | Except.ok (w, v) =>
      Except.ok
        { migratedConfig := normalizeConfigObject w v
        , wasMigrated := startingSchemaVersion != v
        , startedFrom := startingSchemaVersion }

/-!
The persisted-config read path and the `WinboatConfig` constructor.
-/

/-- What the bytes at the config path hold: no file, a file that fails to
parse as a JSON object (parse error, or a root that is `null`, an array or
a non-object), or a file parsing to an object. -/
inductive StoredConfig where
  | absent
  | corrupt (raw : String)
  | valid (r : ConfigRecord)

/-- File-system state the config engine touches: the config file and the
timestamped corruption backups. -/
structure ConfigFs where
  stored : StoredConfig
  backups : List (Nat × String)

/-- File-system writes of the read path, in order. -/
inductive FsEvent where
  | writeBackup (timestamp : Nat) (content : String)
  | writeConfigFile (r : ConfigRecord)

/-- Result of `readConfigObject`: the updated file system, the returned
config, and the ordered write trace. -/
structure ReadOutcome where
  fs : ConfigFs
  result : ConfigRecord
  events : List FsEvent

/-- `WinboatConfig.readConfigObject` with `writeDefault = true` (the
default, used by the constructor).  The corrupt branch is the source's
`catch`: back up the raw bytes, then write and return a fresh default.
On the valid branch the migration engine runs inside `try`; its error is
caught and the salvage normalization is returned.  The
`JSON.stringify`-fingerprint comparison is modelled as structural
equality of the records.  The read path itself never throws, which is why
the result type is not an `Except`. -/
def readConfigObject (now : Nat) (fs : ConfigFs) : ReadOutcome :=
  match fs.stored with
  | StoredConfig.absent =>
    { fs := { stored := StoredConfig.valid createDefaultConfig, backups := fs.backups }
    , result := createDefaultConfig
    , events := [FsEvent.writeConfigFile createDefaultConfig] }
  | StoredConfig.corrupt raw =>
    { fs := { stored := StoredConfig.valid createDefaultConfig
            , backups := fs.backups ++ [(now, raw)] }
    , result := createDefaultConfig
    , events := [FsEvent.writeBackup now raw, FsEvent.writeConfigFile createDefaultConfig] }
  | StoredConfig.valid r =>
    match migrateVersionedConfig r with
    | Except.ok mres =>
      let hasAllKeys := configKeys.all fun k => hasKey r k
      let rewrite := mres.wasMigrated || !(r == mres.migratedConfig) || !hasAllKeys
      { fs := { stored := StoredConfig.valid (if rewrite then mres.migratedConfig else r)
              , backups := fs.backups }
      , result := mres.migratedConfig
      , events := if rewrite then [FsEvent.writeConfigFile mres.migratedConfig] else [] }
    | Except.error _ =>
      { fs := { stored := StoredConfig.valid r, backups := fs.backups }
      , result := normalizeConfigObject r (inferSchemaVersion r)
      , events := [] }

/-- The version-data refresh at the top of the `WinboatConfig`
constructor: when the stored current token differs from the running
version, previous becomes the old current and current becomes the running
version.  After `readConfigObject`, `versionData` is always a normalized
pair, so the fall-through branches (which would throw in JavaScript) are
unreachable and modelled as the identity. -/
def updateVersionDataOnLoad (c : ConfigRecord) : ConfigRecord :=
  match getKey c "versionData" with
  | some (JVal.obj fields) =>
    match getKey fields "current" with
    | some (JVal.version cur) =>
      if cur.versionToken == currentVersion.versionToken then c
      else
        setKey c "versionData"
          (JVal.obj (setKey (setKey fields "previous" (JVal.version cur))
            "current" (JVal.version currentVersion)))
    | _ => c
  | _ => c

/-- `getPreferredGuestArchitecture(this.config.containerRuntime)` as the
constructor calls it: the strict equality against the `QEMU_NATIVE` enum
token applied to the stored property value. -/
def preferredGuestArchOfRecord (c : ConfigRecord) : String :=
  match getKey c "containerRuntime" with
  | some (JVal.str t) => if t == RuntimeKind.QEMU_NATIVE.token then "arm64" else "amd64"
  | _ => "amd64"

/-- The guest-architecture forcing step of the constructor: when the
stored `guestArch` differs (under strict equality) from the preferred
architecture of the configured runtime, it is overwritten. -/
def forceGuestArch (c : ConfigRecord) : ConfigRecord :=
  let preferred := preferredGuestArchOfRecord c
  let guestOk :=
    match getKey c "guestArch" with
    | some (JVal.str g) => g == preferred
    | _ => false
  if guestOk then c else setKey c "guestArch" (JVal.str preferred)

/-- The schema-version bump at the end of the constructor.  A non-numeric
value cannot occur after `readConfigObject`; the JavaScript `<` comparison
on such a value is modelled as not triggering the bump. -/
def bumpSchemaVersion (c : ConfigRecord) : ConfigRecord :=
  match getKey c "schemaVersion" with
  | some (JVal.num n) =>
    if n < CONFIG_SCHEMA_VERSION then setKey c "schemaVersion" (JVal.num CONFIG_SCHEMA_VERSION)
    else c
  | _ => c

/-- The `WinboatConfig` private constructor: read (or create) the config,
refresh the version data, force `guestArch` to the runtime's preferred
architecture when it differs, and bump a lagging `schemaVersion`.  The
proxy persists each property set back to disk; only the in-memory record
matters to the claims, so the returned file system is the one left by
`readConfigObject`. -/
def winboatConfigLoad (now : Nat) (fs : ConfigFs) : ConfigFs × ConfigRecord :=
  let ro := readConfigObject now fs
  (ro.fs, bumpSchemaVersion (forceGuestArch (updateVersionDataOnLoad ro.result)))

/-- Entries of a record whose key is not a key of the default config
(the part of a config the engine does not know about). -/
def nonDefaultEntries (r : ConfigRecord) : ConfigRecord :=
  r.filter fun p => !(hasKey createDefaultConfig p.1)

/-- The comparison object of the chain-consistency property: "a config
that already carries the current schema version with the equivalent field
values".  It is built directly from the spec's words — the runtime kind
normalized out of the legacy keys, the legacy keys dropped, the guest
architecture normalized for that runtime, and the current schema version —
not by running the migration steps. -/
def equivalentCurrentConfig (c : ConfigRecord) : ConfigRecord :=
  let runtime := normalizeRuntimeKind (v0RuntimeValue c) RuntimeKind.DOCKER
  let c1 := setKey c "containerRuntime" (JVal.str runtime.token)
  let c2 := delKey (delKey (delKey c1 "runtime") "container") "containerType"
  let c3 := setKey c2 "guestArch"
    (JVal.str (normalizeGuestArchitecture (getKey c2 "guestArch") runtime))
  setKey c3 "schemaVersion" (JVal.num CONFIG_SCHEMA_VERSION)

/-!
Concrete fixtures used by the counterexamples and witnesses.
-/

/-- A runtime state left behind by an unclean shutdown: the PID file still
references process 42, which is no longer alive. -/
def qemuStaleFixture : QemuState :=
  { pidFile := some (some 42), alive := fun _ => false,
    composeFileExists := true, firmwareVarsExists := true, diskExists := true }

/-- A runtime state whose PID file exists but holds no parseable PID. -/
def qemuBadPidFixture : QemuState :=
  { pidFile := some none, alive := fun _ => true,
    composeFileExists := true, firmwareVarsExists := true, diskExists := true }

/-- A runtime state with a live VM process recorded in the PID file. -/
def qemuRunningFixture : QemuState :=
  { pidFile := some (some 42), alive := fun _ => true,
    composeFileExists := true, firmwareVarsExists := true, diskExists := true }

/-- A macOS Apple Silicon host with the experimental native-runtime flag
enabled. -/
def macNativeFlagEnv : HostEnv :=
  { platform := "darwin", arch := "arm64",
    envMacNativeFlag := some "1", envLegacyQemuFlag := none }

/-- A persisted config written by a (hypothetical) newer release: schema
version 3 and a runtime kind this build does not know. -/
def newerConfigFixture : ConfigRecord :=
  [ ("schemaVersion", JVal.num 3)
  , ("containerRuntime", JVal.str "Lima")
  , ("wallpaper", JVal.str "beach.png") ]

/-- A pre-versioning (schema version 0) persisted config using the legacy
`runtime` key. -/
def v0ConfigFixture : ConfigRecord :=
  [ ("scale", JVal.num 150)
  , ("runtime", JVal.str "podman")
  , ("extraKey", JVal.str "x") ]

/-!
Lemmas about the JavaScript object operations.
-/

theorem find?_eq_none_of_hasKey_false {r : ConfigRecord} {k : String}
    (h : hasKey r k = false) : (r.find? fun p => p.1 == k) = none := by
  unfold hasKey at h
  cases hf : r.find? fun p => p.1 == k with
  | none => rfl
  | some p => rw [hf] at h; simp at h

theorem beq_symm_false {k k2 : String} (h : (k2 == k) = false) : (k == k2) = false := by
  cases hbe : k == k2 with
  | false => rfl
  | true =>
    have : k = k2 := by simpa using hbe
    subst this
    simp at h

/-- The in-place update map of `setKey` does not disturb lookups of a
different key. -/
theorem find?_setMap_ne (r : ConfigRecord) (k : String) (v : JVal) (k2 : String)
    (h : (k2 == k) = false) :
    ((r.map fun p => if p.1 == k then (k, v) else p).find? fun p => p.1 == k2)
      = r.find? fun p => p.1 == k2 := by
  induction r with
  | nil => rfl
  | cons p r ih =>
    by_cases hp : (p.1 == k) = true
    · have hpk : p.1 = k := by simpa using hp
      have h1 : (k == k2) = false := beq_symm_false h
      have h2 : (p.1 == k2) = false := by rw [hpk]; exact h1
      rw [List.map_cons, if_pos hp]
      simp only [List.find?_cons, h1, h2]
      exact ih
    · rw [List.map_cons, if_neg hp]
      simp only [List.find?_cons]
      cases hq : p.1 == k2 with
      | true => rfl
      | false => exact ih

/-- The in-place update map of `setKey` makes every lookup of the key
yield the new value, provided the key is present. -/
theorem find?_setMap_self (r : ConfigRecord) (k : String) (v : JVal)
    (h : hasKey r k = true) :
    ((r.map fun p => if p.1 == k then (k, v) else p).find? fun p => p.1 == k)
      = some (k, v) := by
  induction r with
  | nil => simp [hasKey] at h
  | cons p r ih =>
    by_cases hp : (p.1 == k) = true
    · rw [List.map_cons, if_pos hp]
      simp only [List.find?_cons, beq_self_eq_true]
    · have hpf : (p.1 == k) = false := eq_false_of_ne_true hp
      rw [List.map_cons, if_neg hp]
      simp only [List.find?_cons, hpf]
      apply ih
      unfold hasKey at h ⊢
      simp only [List.find?_cons, hpf] at h
      exact h

theorem getKey_setKey_self (r : ConfigRecord) (k : String) (v : JVal) :
    getKey (setKey r k v) k = some v := by
  unfold setKey
  by_cases h : hasKey r k = true
  · rw [if_pos h]
    unfold getKey
    rw [find?_setMap_self r k v h]
    rfl
  · rw [if_neg h]
    unfold getKey
    rw [List.find?_append, find?_eq_none_of_hasKey_false (eq_false_of_ne_true h)]
    simp [List.find?_cons]

theorem getKey_setKey_ne (r : ConfigRecord) (k : String) (v : JVal) (k2 : String)
    (h : (k2 == k) = false) : getKey (setKey r k v) k2 = getKey r k2 := by
  unfold setKey
  by_cases hk : hasKey r k = true
  · rw [if_pos hk]
    unfold getKey
    rw [find?_setMap_ne r k v k2 h]
  · rw [if_neg hk]
    unfold getKey
    rw [List.find?_append]
    have hone : (([(k, v)] : ConfigRecord).find? fun p => p.1 == k2) = none := by
      simp [List.find?_cons, beq_symm_false h]
    rw [hone]
    cases r.find? fun p => p.1 == k2 <;> rfl

theorem getKey_delKey_ne (r : ConfigRecord) (k : String) (k2 : String)
    (h : (k2 == k) = false) : getKey (delKey r k) k2 = getKey r k2 := by
  unfold delKey getKey
  induction r with
  | nil => rfl
  | cons p r ih =>
    rw [List.filter_cons]
    by_cases hp : (p.1 == k) = true
    · have hpk : p.1 = k := by simpa using hp
      have h2 : (p.1 == k2) = false := by rw [hpk]; exact beq_symm_false h
      rw [if_neg (show ¬ ((!(p.1 == k)) = true) by rw [hp]; simp)]
      simp only [List.find?_cons, h2]
      exact ih
    · have hpf : (p.1 == k) = false := eq_false_of_ne_true hp
      rw [if_pos (show (!(p.1 == k)) = true by rw [hpf]; rfl)]
      simp only [List.find?_cons]
      cases hq : p.1 == k2 with
      | true => rfl
      | false => exact ih

theorem hasKey_of_mem {r : ConfigRecord} {p : String × JVal} (h : p ∈ r) :
    hasKey r p.1 = true := by
  unfold hasKey
  induction r with
  | nil => simp at h
  | cons q r ih =>
    rcases List.mem_cons.mp h with h1 | h2
    · subst h1
      simp [List.find?_cons]
    · simp only [List.find?_cons]
      cases hq : q.1 == p.1 with
      | true => rfl
      | false => exact ih h2

/-- Looking up a mapped record whose map keeps keys fixed. -/
theorem find?_map_keyfix (d : ConfigRecord) (g : String × JVal → JVal) (k : String) :
    ((d.map fun p => (p.1, g p)).find? fun q => q.1 == k)
      = (d.find? fun p => p.1 == k).map fun p => (p.1, g p) := by
  induction d with
  | nil => rfl
  | cons p d ih =>
    simp only [List.map_cons, List.find?_cons]
    cases hp : p.1 == k with
    | true => rfl
    | false => exact ih

theorem getKey_spreadMerge_left (d c : ConfigRecord) (k : String) (v : JVal)
    (h : getKey d k = some v) :
    getKey (spreadMerge d c) k = some ((getKey c k).getD v) := by
  unfold getKey at h
  obtain ⟨p, hp, hpv⟩ : ∃ p, (d.find? fun p => p.1 == k) = some p ∧ p.2 = v := by
    cases hf : d.find? fun p => p.1 == k with
    | none => rw [hf] at h; simp at h
    | some p => rw [hf] at h; exact ⟨p, rfl, by simpa using h⟩
  have hpk : p.1 = k := by
    have hfs := List.find?_some hp
    simpa using hfs
  unfold spreadMerge getKey
  rw [List.find?_append, find?_map_keyfix, hp]
  simp only [Option.map_some', Option.or_some, hpk, hpv]

theorem getKey_spreadMerge_not_left (d c : ConfigRecord) (k : String)
    (h : hasKey d k = false) :
    getKey (spreadMerge d c) k = getKey c k := by
  unfold spreadMerge getKey
  rw [List.find?_append, find?_map_keyfix, find?_eq_none_of_hasKey_false h]
  simp only [Option.map_none', Option.none_or]
  induction c with
  | nil => rfl
  | cons q c ih =>
    rw [List.filter_cons]
    by_cases hq : (q.1 == k) = true
    · have hqk : q.1 = k := by simpa using hq
      rw [if_pos (show (!(hasKey d q.1)) = true by rw [hqk, h]; rfl)]
      simp [List.find?_cons, hq]
    · have hq2 : (q.1 == k) = false := eq_false_of_ne_true hq
      by_cases hkeep : (!(hasKey d q.1)) = true
      · rw [if_pos hkeep]
        simp only [List.find?_cons, hq2]
        exact ih
      · rw [if_neg hkeep]
        conv_rhs => rw [show (List.find? (fun p => p.1 == k) (q :: c))
          = List.find? (fun p => p.1 == k) c by simp only [List.find?_cons, hq2]]
        exact ih

theorem beq_false_of_ne {a b : String} (h : a ≠ b) : (a == b) = false := by
  cases hbe : a == b with
  | false => rfl
  | true => exact absurd (by simpa using hbe) h

theorem filter_setMap_nonDefault (r : ConfigRecord) (k : String) (v : JVal)
    (h : hasKey createDefaultConfig k = true) :
    ((r.map fun p => if p.1 == k then (k, v) else p).filter
        fun p => !(hasKey createDefaultConfig p.1))
      = r.filter fun p => !(hasKey createDefaultConfig p.1) := by
  induction r with
  | nil => rfl
  | cons p r ih =>
    by_cases hp : (p.1 == k) = true
    · have hpk : p.1 = k := by simpa using hp
      rw [List.map_cons, if_pos hp, List.filter_cons, List.filter_cons]
      rw [if_neg (show ¬ ((!(hasKey createDefaultConfig (k, v).1)) = true) by simp [h])]
      rw [if_neg (show ¬ ((!(hasKey createDefaultConfig p.1)) = true) by simp [hpk, h])]
      exact ih
    · rw [List.map_cons, if_neg hp, List.filter_cons, List.filter_cons]
      by_cases hkeep : (!(hasKey createDefaultConfig p.1)) = true
      · rw [if_pos hkeep, if_pos hkeep, ih]
      · rw [if_neg hkeep, if_neg hkeep]
        exact ih

theorem nonDefaultEntries_setKey (r : ConfigRecord) (k : String) (v : JVal)
    (h : hasKey createDefaultConfig k = true) :
    nonDefaultEntries (setKey r k v) = nonDefaultEntries r := by
  unfold setKey nonDefaultEntries
  by_cases hk : hasKey r k = true
  · rw [if_pos hk]
    exact filter_setMap_nonDefault r k v h
  · rw [if_neg hk, List.filter_append]
    have hone : (([(k, v)] : ConfigRecord).filter
        fun p => !(hasKey createDefaultConfig p.1)) = [] := by
      simp [List.filter_cons, h]
    rw [hone, List.append_nil]

/-- Two records that agree on every default key and on their non-default
entries normalize identically. -/
theorem normalizeConfigObject_ext (x y : ConfigRecord) (v : Int)
    (h : ∀ k, hasKey createDefaultConfig k = true → getKey x k = getKey y k)
    (hextra : nonDefaultEntries x = nonDefaultEntries y) :
    normalizeConfigObject x v = normalizeConfigObject y v := by
  have hcr : getKey x "containerRuntime" = getKey y "containerRuntime" :=
    h _ (by decide)
  have hga : getKey x "guestArch" = getKey y "guestArch" := h _ (by decide)
  have hvd : getKey x "versionData" = getKey y "versionData" := h _ (by decide)
  have hmerge : spreadMerge createDefaultConfig x = spreadMerge createDefaultConfig y := by
    unfold spreadMerge
    have hmap : (createDefaultConfig.map fun p => (p.1, (getKey x p.1).getD p.2))
        = createDefaultConfig.map fun p => (p.1, (getKey y p.1).getD p.2) := by
      apply List.map_congr_left
      intro p hp
      rw [h p.1 (hasKey_of_mem hp)]
    unfold nonDefaultEntries at hextra
    rw [hmap, hextra]
  simp only [normalizeConfigObject]
  rw [hmerge, hcr, hga, hvd]

/-- Normalizing a canonical runtime token yields the same runtime: every
enum token lowercases onto a key of the token map. -/
theorem normalizeRuntimeKind_token (r : RuntimeKind) (fallback : RuntimeKind) :
    normalizeRuntimeKind (some (JVal.str r.token)) fallback = r := by
  cases r <;> rfl

theorem inferSchemaVersion_setKey (r : ConfigRecord) (n : Int) (h : 0 ≤ n) :
    inferSchemaVersion (setKey r "schemaVersion" (JVal.num n)) = n := by
  unfold inferSchemaVersion
  rw [getKey_setKey_self]
  simp [h]

theorem inferSchemaVersion_migrateV0 (c : ConfigRecord) :
    inferSchemaVersion (migrateConfigV0ToV1 c) = 1 :=
  inferSchemaVersion_setKey _ 1 (by norm_num)

theorem inferSchemaVersion_migrateV1 (c : ConfigRecord) :
    inferSchemaVersion (migrateConfigV1ToV2 c) = 2 :=
  inferSchemaVersion_setKey _ 2 (by norm_num)

/-- Unfolding the migration engine on a config inferred at version 0: the
loop performs exactly the two chain steps. -/
theorem migrateVersionedConfig_v0 (c : ConfigRecord) (h : inferSchemaVersion c = 0) :
    migrateVersionedConfig c = Except.ok
      { migratedConfig := normalizeConfigObject (migrateConfigV1ToV2 (migrateConfigV0ToV1 c)) 2
      , wasMigrated := true
      , startedFrom := 0 } := by
  unfold migrateVersionedConfig
  rw [h]
  simp [migrateLoop, inferSchemaVersion_migrateV0, inferSchemaVersion_migrateV1,
    CONFIG_SCHEMA_VERSION]

/-- Unfolding the migration engine on a config inferred at the current
version: no step runs. -/
theorem migrateVersionedConfig_at_current (c : ConfigRecord)
    (h : inferSchemaVersion c = 2) :
    migrateVersionedConfig c = Except.ok
      { migratedConfig := normalizeConfigObject c 2
      , wasMigrated := false
      , startedFrom := 2 } := by
  unfold migrateVersionedConfig
  rw [h]
  simp [migrateLoop, CONFIG_SCHEMA_VERSION]

/-- Unfolding the migration engine on a config from a newer release. -/
theorem migrateVersionedConfig_newer (c : ConfigRecord)
    (h : CONFIG_SCHEMA_VERSION < inferSchemaVersion c) :
    migrateVersionedConfig c = Except.ok
      { migratedConfig := normalizeConfigObject c (inferSchemaVersion c)
      , wasMigrated := false
      , startedFrom := inferSchemaVersion c } := by
  unfold migrateVersionedConfig
  rw [if_pos h]

theorem getKey_some_of_hasKey {r : ConfigRecord} {k : String}
    (h : hasKey r k = true) : ∃ v, getKey r k = some v := by
  unfold hasKey at h
  unfold getKey
  cases hf : r.find? fun p => p.1 == k with
  | none => rw [hf] at h; simp at h
  | some p => exact ⟨p.2, rfl⟩

theorem getKey_none_of_hasKey_false {r : ConfigRecord} {k : String}
    (h : hasKey r k = false) : getKey r k = none := by
  unfold getKey
  rw [find?_eq_none_of_hasKey_false h]
  rfl

/-!
Frame lemmas for the migration steps, the spec-side equivalent config, and
the final normalization.
-/

theorem getKey_migrateV0_cr (c : ConfigRecord) :
    getKey (migrateConfigV0ToV1 c) "containerRuntime"
      = some (JVal.str (normalizeRuntimeKind (v0RuntimeValue c) RuntimeKind.DOCKER).token) := by
  simp only [migrateConfigV0ToV1]
  rw [getKey_setKey_ne _ _ _ _ (by rfl), getKey_delKey_ne _ _ _ (by rfl),
    getKey_delKey_ne _ _ _ (by rfl), getKey_delKey_ne _ _ _ (by rfl),
    getKey_setKey_self]

theorem getKey_migrateV0_ga (c : ConfigRecord) :
    getKey (migrateConfigV0ToV1 c) "guestArch" = getKey c "guestArch" := by
  simp only [migrateConfigV0ToV1]
  rw [getKey_setKey_ne _ _ _ _ (by rfl), getKey_delKey_ne _ _ _ (by rfl),
    getKey_delKey_ne _ _ _ (by rfl), getKey_delKey_ne _ _ _ (by rfl),
    getKey_setKey_ne _ _ _ _ (by rfl)]

theorem getKey_migrateV0_other (c : ConfigRecord) (k : String)
    (h1 : k ≠ "containerRuntime") (h2 : k ≠ "schemaVersion")
    (h3 : k ≠ "runtime") (h4 : k ≠ "container") (h5 : k ≠ "containerType") :
    getKey (migrateConfigV0ToV1 c) k = getKey c k := by
  simp only [migrateConfigV0ToV1]
  rw [getKey_setKey_ne _ _ _ _ (beq_false_of_ne h2),
    getKey_delKey_ne _ _ _ (beq_false_of_ne h5),
    getKey_delKey_ne _ _ _ (beq_false_of_ne h4),
    getKey_delKey_ne _ _ _ (beq_false_of_ne h3),
    getKey_setKey_ne _ _ _ _ (beq_false_of_ne h1)]

theorem getKey_migrateV1_cr (c : ConfigRecord) :
    getKey (migrateConfigV1ToV2 c) "containerRuntime"
      = some (JVal.str (normalizeRuntimeKind (getKey c "containerRuntime") RuntimeKind.DOCKER).token) := by
  simp only [migrateConfigV1ToV2]
  rw [getKey_setKey_ne _ _ _ _ (by rfl), getKey_setKey_ne _ _ _ _ (by rfl),
    getKey_setKey_self]

theorem getKey_migrateV1_ga (c : ConfigRecord) :
    getKey (migrateConfigV1ToV2 c) "guestArch"
      = some (JVal.str (normalizeGuestArchitecture (getKey c "guestArch")
          (normalizeRuntimeKind (getKey c "containerRuntime") RuntimeKind.DOCKER))) := by
  simp only [migrateConfigV1ToV2]
  rw [getKey_setKey_ne _ _ _ _ (by rfl), getKey_setKey_self,
    getKey_setKey_ne _ _ _ _ (by rfl)]

theorem getKey_migrateV1_sv (c : ConfigRecord) :
    getKey (migrateConfigV1ToV2 c) "schemaVersion" = some (JVal.num 2) := by
  simp only [migrateConfigV1ToV2]
  rw [getKey_setKey_self]

theorem getKey_migrateV1_other (c : ConfigRecord) (k : String)
    (h1 : k ≠ "containerRuntime") (h2 : k ≠ "guestArch") (h3 : k ≠ "schemaVersion") :
    getKey (migrateConfigV1ToV2 c) k = getKey c k := by
  simp only [migrateConfigV1ToV2]
  rw [getKey_setKey_ne _ _ _ _ (beq_false_of_ne h3),
    getKey_setKey_ne _ _ _ _ (beq_false_of_ne h2),
    getKey_setKey_ne _ _ _ _ (beq_false_of_ne h1)]

theorem getKey_equiv_cr (c : ConfigRecord) :
    getKey (equivalentCurrentConfig c) "containerRuntime"
      = some (JVal.str (normalizeRuntimeKind (v0RuntimeValue c) RuntimeKind.DOCKER).token) := by
  simp only [equivalentCurrentConfig]
  rw [getKey_setKey_ne _ _ _ _ (by rfl), getKey_setKey_ne _ _ _ _ (by rfl),
    getKey_delKey_ne _ _ _ (by rfl), getKey_delKey_ne _ _ _ (by rfl),
    getKey_delKey_ne _ _ _ (by rfl), getKey_setKey_self]

theorem getKey_equiv_ga (c : ConfigRecord) :
    getKey (equivalentCurrentConfig c) "guestArch"
      = some (JVal.str (normalizeGuestArchitecture (getKey c "guestArch")
          (normalizeRuntimeKind (v0RuntimeValue c) RuntimeKind.DOCKER))) := by
  simp only [equivalentCurrentConfig]
  rw [getKey_setKey_ne _ _ _ _ (by rfl), getKey_setKey_self,
    getKey_delKey_ne _ _ _ (by rfl), getKey_delKey_ne _ _ _ (by rfl),
    getKey_delKey_ne _ _ _ (by rfl), getKey_setKey_ne _ _ _ _ (by rfl)]

theorem getKey_equiv_sv (c : ConfigRecord) :
    getKey (equivalentCurrentConfig c) "schemaVersion" = some (JVal.num 2) := by
  simp only [equivalentCurrentConfig]
  rw [getKey_setKey_self]
  rfl

theorem getKey_equiv_other (c : ConfigRecord) (k : String)
    (h1 : k ≠ "containerRuntime") (h2 : k ≠ "guestArch") (h3 : k ≠ "schemaVersion")
    (h4 : k ≠ "runtime") (h5 : k ≠ "container") (h6 : k ≠ "containerType") :
    getKey (equivalentCurrentConfig c) k = getKey c k := by
  simp only [equivalentCurrentConfig]
  rw [getKey_setKey_ne _ _ _ _ (beq_false_of_ne h3),
    getKey_setKey_ne _ _ _ _ (beq_false_of_ne h2),
    getKey_delKey_ne _ _ _ (beq_false_of_ne h6),
    getKey_delKey_ne _ _ _ (beq_false_of_ne h5),
    getKey_delKey_ne _ _ _ (beq_false_of_ne h4),
    getKey_setKey_ne _ _ _ _ (beq_false_of_ne h1)]

theorem inferSchemaVersion_equiv (c : ConfigRecord) :
    inferSchemaVersion (equivalentCurrentConfig c) = 2 :=
  inferSchemaVersion_setKey _ 2 (by norm_num)

/-- The two-step chain applied to any config, then normalized, agrees with
normalizing the directly built equivalent current-version config. -/
theorem chain_eq_equivalent (c : ConfigRecord) :
    normalizeConfigObject (migrateConfigV1ToV2 (migrateConfigV0ToV1 c)) 2
      = normalizeConfigObject (equivalentCurrentConfig c) 2 := by
  apply normalizeConfigObject_ext
  · intro k hk
    by_cases hsv : k = "schemaVersion"
    · subst hsv
      rw [getKey_migrateV1_sv, getKey_equiv_sv]
    · by_cases hga : k = "guestArch"
      · subst hga
        rw [getKey_migrateV1_ga, getKey_equiv_ga, getKey_migrateV0_ga,
          getKey_migrateV0_cr, normalizeRuntimeKind_token]
      · by_cases hcr : k = "containerRuntime"
        · subst hcr
          rw [getKey_migrateV1_cr, getKey_equiv_cr, getKey_migrateV0_cr,
            normalizeRuntimeKind_token]
        · have hl1 : k ≠ "runtime" := by
            intro he; rw [he] at hk; exact absurd hk (by decide)
          have hl2 : k ≠ "container" := by
            intro he; rw [he] at hk; exact absurd hk (by decide)
          have hl3 : k ≠ "containerType" := by
            intro he; rw [he] at hk; exact absurd hk (by decide)
          rw [getKey_migrateV1_other _ _ hcr hga hsv,
            getKey_migrateV0_other _ _ hcr hsv hl1 hl2 hl3,
            getKey_equiv_other _ _ hcr hga hsv hl1 hl2 hl3]
  · simp only [migrateConfigV0ToV1, migrateConfigV1ToV2, equivalentCurrentConfig]
    rw [nonDefaultEntries_setKey _ _ _ (by decide),
      nonDefaultEntries_setKey _ _ _ (by decide),
      nonDefaultEntries_setKey _ _ _ (by decide),
      nonDefaultEntries_setKey _ _ _ (by decide),
      nonDefaultEntries_setKey _ _ _ (by decide),
      nonDefaultEntries_setKey _ _ _ (by decide)]

/-!
Frame lemmas for the final normalization and the constructor.
-/

theorem getKey_normalize_sv (c : ConfigRecord) (v : Int) :
    getKey (normalizeConfigObject c v) "schemaVersion" = some (JVal.num v) := by
  simp only [normalizeConfigObject]
  rw [getKey_setKey_ne _ _ _ _ (by rfl), getKey_setKey_self]

theorem getKey_normalize_other (c : ConfigRecord) (v : Int) (k : String)
    (h1 : k ≠ "containerRuntime") (h2 : k ≠ "guestArch")
    (h3 : k ≠ "schemaVersion") (h4 : k ≠ "versionData") :
    getKey (normalizeConfigObject c v) k
      = getKey (spreadMerge createDefaultConfig c) k := by
  simp only [normalizeConfigObject]
  rw [getKey_setKey_ne _ _ _ _ (beq_false_of_ne h4),
    getKey_setKey_ne _ _ _ _ (beq_false_of_ne h3),
    getKey_setKey_ne _ _ _ _ (beq_false_of_ne h2),
    getKey_setKey_ne _ _ _ _ (beq_false_of_ne h1)]

theorem preferredGuestArchOfRecord_setKey (c : ConfigRecord) (k : String) (v : JVal)
    (h : k ≠ "containerRuntime") :
    preferredGuestArchOfRecord (setKey c k v) = preferredGuestArchOfRecord c := by
  unfold preferredGuestArchOfRecord
  rw [getKey_setKey_ne _ _ _ _ (beq_false_of_ne fun he => h he.symm)]

theorem getKey_updateVersionDataOnLoad (c : ConfigRecord) (k : String)
    (h : k ≠ "versionData") :
    getKey (updateVersionDataOnLoad c) k = getKey c k := by
  unfold updateVersionDataOnLoad
  split
  · split
    · split
      · rfl
      · rw [getKey_setKey_ne _ _ _ _ (beq_false_of_ne h)]
    · rfl
  · rfl

theorem getKey_forceGuestArch_ga (c : ConfigRecord) :
    getKey (forceGuestArch c) "guestArch"
      = some (JVal.str (preferredGuestArchOfRecord c)) := by
  simp only [forceGuestArch]
  cases hga : getKey c "guestArch" with
  | none => simp only [hga]; rw [if_neg (by simp), getKey_setKey_self]
  | some v =>
    cases v with
    | str g =>
      by_cases hg : (g == preferredGuestArchOfRecord c) = true
      · have hgp : g = preferredGuestArchOfRecord c := by simpa using hg
        simp [hga, hg, hgp]
      · simp only [hga, eq_false_of_ne_true hg]
        rw [if_neg (by simp), getKey_setKey_self]
    | num n => simp only [hga]; rw [if_neg (by simp), getKey_setKey_self]
    | bool b => simp only [hga]; rw [if_neg (by simp), getKey_setKey_self]
    | null => simp only [hga]; rw [if_neg (by simp), getKey_setKey_self]
    | arr xs => simp only [hga]; rw [if_neg (by simp), getKey_setKey_self]
    | obj fields => simp only [hga]; rw [if_neg (by simp), getKey_setKey_self]
    | version vv => simp only [hga]; rw [if_neg (by simp), getKey_setKey_self]

theorem getKey_forceGuestArch_other (c : ConfigRecord) (k : String)
    (h : k ≠ "guestArch") :
    getKey (forceGuestArch c) k = getKey c k := by
  simp only [forceGuestArch]
  split
  · rfl
  · rw [getKey_setKey_ne _ _ _ _ (beq_false_of_ne h)]

theorem getKey_bumpSchemaVersion_other (c : ConfigRecord) (k : String)
    (h : k ≠ "schemaVersion") :
    getKey (bumpSchemaVersion c) k = getKey c k := by
  unfold bumpSchemaVersion
  split
  · split
    · rw [getKey_setKey_ne _ _ _ _ (beq_false_of_ne h)]
    · rfl
  · rfl

theorem preferred_forceGuestArch (c : ConfigRecord) :
    preferredGuestArchOfRecord (forceGuestArch c) = preferredGuestArchOfRecord c := by
  have h := getKey_forceGuestArch_other c "containerRuntime" (by decide)
  unfold preferredGuestArchOfRecord
  rw [h]

theorem preferred_bumpSchemaVersion (c : ConfigRecord) :
    preferredGuestArchOfRecord (bumpSchemaVersion c) = preferredGuestArchOfRecord c := by
  have h := getKey_bumpSchemaVersion_other c "containerRuntime" (by decide)
  unfold preferredGuestArchOfRecord
  rw [h]

/-!
Claim theorems.
-/

/-- C1: the claim states that every raw status outside the explicit status
map yields UNKNOWN and `getStatus` never throws.  Indexing the map with an
unmapped raw status ("configured" is the state podman actually reports for
a freshly created container) produces JavaScript `undefined` (`none`) —
not a member of the closed status set and in particular not UNKNOWN — so
the declared `Promise<ContainerStatus>` return type is violated.  A failed
inspection does map to UNKNOWN, and the lookup itself cannot throw. -/
theorem c1_unmapped_raw_status_undefined :
    podmanGetStatus (Except.ok "configured") = none ∧
    dockerGetStatus (Except.ok "configured") = none ∧
    (none : Option ContainerStatus) ≠ some ContainerStatus.UNKNOWN ∧
    podmanGetStatus (Except.error "inspect failed") = some ContainerStatus.UNKNOWN ∧
    dockerGetStatus (Except.error "inspect failed") = some ContainerStatus.UNKNOWN :=
  ⟨rfl, rfl, by simp, rfl, rfl⟩

/-- C2 counterexample: on a state whose PID file references the dead
process 42, `#startVM` proceeds (the liveness-based status check does not
short-circuit) but its action trace contains no removal of the stale PID
file — the claimed "stale file is discarded before the already-running
check" does not happen. -/
theorem c2_stale_pid_not_removed_cex :
    qemuReadPid qemuStaleFixture = some 42 ∧
    qemuStaleFixture.alive 42 = false ∧
    (qemuStartVM { resolveOk := true, childPid := 100 } qemuStaleFixture).map Prod.snd
      = Except.ok [QemuAction.spawn 100, QemuAction.writePidFile 100] ∧
    QemuAction.removePidFile ∉ [QemuAction.spawn 100, QemuAction.writePidFile 100] :=
  ⟨rfl, rfl, rfl, by decide⟩

/-- C2 amended: when a PID file references a process that is not alive,
start is not short-circuited (the status check tests liveness, not file
presence): the VM is spawned, the stale PID file is overwritten — never
removed — with the new child PID, and the instance ends up RUNNING, so a
restart after an unclean shutdown always succeeds. -/
theorem c2_stale_pid_restart_amended (env : QemuStartEnv) (s : QemuState) (pid : Int)
    (hpid : qemuReadPid s = some pid) (hdead : s.alive pid = false)
    (hresolve : env.resolveOk = true) (hchild : 0 < env.childPid) :
    ∃ s2 acts, qemuStartVM env s = Except.ok (s2, acts) ∧
      acts = [QemuAction.spawn env.childPid, QemuAction.writePidFile env.childPid] ∧
      QemuAction.removePidFile ∉ acts ∧
      s2.pidFile = some (some env.childPid) ∧
      qemuGetStatus s2 = ContainerStatus.RUNNING := by
  have hstatus : qemuGetStatus s = ContainerStatus.EXITED := by
    simp [qemuGetStatus, hpid, hdead]
  have hnp : ¬ (env.childPid ≤ 0) := by omega
  simp only [qemuStartVM, hstatus]
  rw [if_neg (by simp)]
  rw [hresolve]
  simp only [Bool.not_true]
  rw [if_neg (by simp)]
  refine ⟨_, _, rfl, rfl, by simp, rfl, ?_⟩
  simp [qemuGetStatus, qemuReadPid, hnp]

/-- Witness for the amended C2 on the stale fixture. -/
theorem c2_stale_pid_restart_amended_witness :
    qemuReadPid qemuStaleFixture = some 42 ∧
    qemuStaleFixture.alive 42 = false ∧
    ∃ s2 acts,
      qemuStartVM { resolveOk := true, childPid := 100 } qemuStaleFixture
        = Except.ok (s2, acts) ∧
      acts = [QemuAction.spawn 100, QemuAction.writePidFile 100] ∧
      QemuAction.removePidFile ∉ acts ∧
      s2.pidFile = some (some 100) ∧
      qemuGetStatus s2 = ContainerStatus.RUNNING :=
  ⟨rfl, rfl,
    c2_stale_pid_restart_amended { resolveOk := true, childPid := 100 }
      qemuStaleFixture 42 rfl rfl rfl (by decide)⟩

/-- C3: reading a config file that fails to parse as a JSON object first
writes the original raw bytes to a timestamped sibling backup, then writes
and returns a fresh default config; the read path returns normally (the
parse failure is caught), and the broken bytes survive in the backup. -/
theorem c3_corrupt_config_backup_then_default (now : Nat) (raw : String)
    (backups : List (Nat × String)) :
    readConfigObject now { stored := StoredConfig.corrupt raw, backups := backups }
      = { fs := { stored := StoredConfig.valid createDefaultConfig
                , backups := backups ++ [(now, raw)] }
        , result := createDefaultConfig
        , events := [FsEvent.writeBackup now raw,
            FsEvent.writeConfigFile createDefaultConfig] } :=
  rfl

/-- C4 counterexample: a config at schema version 3 carrying
`containerRuntime = "Lima"` comes back from the engine with
`containerRuntime = "Docker"` — the claimed "preserves the existing field
values (no data loss)" fails, because normalization coerces an
unrecognized runtime to the default. -/
theorem c4_newer_version_value_coerced_cex :
    CONFIG_SCHEMA_VERSION < inferSchemaVersion newerConfigFixture ∧
    getKey newerConfigFixture "containerRuntime" = some (JVal.str "Lima") ∧
    (migrateVersionedConfig newerConfigFixture).map
        (fun r => getKey r.migratedConfig "containerRuntime")
      = Except.ok (some (JVal.str "Docker")) ∧
    some (JVal.str "Docker") ≠ some (JVal.str "Lima") :=
  ⟨by decide, rfl, rfl, by simp⟩

/-- C4 amended: for a config whose inferred schema version exceeds the
engine's, no migration step runs; the result is the input normalized at
its own (higher) schema version with `wasMigrated = false`, the higher
version is kept in the output, and every field other than the four
normalized ones (`containerRuntime`, `guestArch`, `schemaVersion`,
`versionData`) keeps its value, with defaults filled onto missing known
fields.  The normalized fields may be coerced (an unrecognized runtime
falls back to Docker, an invalid architecture to the runtime's preferred
one), so "no data loss" holds only outside them. -/
theorem c4_newer_version_no_migration_amended (c : ConfigRecord)
    (h : CONFIG_SCHEMA_VERSION < inferSchemaVersion c) :
    migrateVersionedConfig c = Except.ok
      { migratedConfig := normalizeConfigObject c (inferSchemaVersion c)
      , wasMigrated := false
      , startedFrom := inferSchemaVersion c } ∧
    getKey (normalizeConfigObject c (inferSchemaVersion c)) "schemaVersion"
      = some (JVal.num (inferSchemaVersion c)) ∧
    (∀ k, k ≠ "containerRuntime" → k ≠ "guestArch" → k ≠ "schemaVersion" →
      k ≠ "versionData" → hasKey c k = true →
      getKey (normalizeConfigObject c (inferSchemaVersion c)) k = getKey c k) ∧
    (∀ k, k ≠ "containerRuntime" → k ≠ "guestArch" → k ≠ "schemaVersion" →
      k ≠ "versionData" → hasKey c k = false → hasKey createDefaultConfig k = true →
      getKey (normalizeConfigObject c (inferSchemaVersion c)) k
        = getKey createDefaultConfig k) := by
  refine ⟨migrateVersionedConfig_newer c h, getKey_normalize_sv c _, ?_, ?_⟩
  · intro k h1 h2 h3 h4 hck
    rw [getKey_normalize_other c _ k h1 h2 h3 h4]
    by_cases hdk : hasKey createDefaultConfig k = true
    · obtain ⟨dv, hdv⟩ := getKey_some_of_hasKey hdk
      rw [getKey_spreadMerge_left _ _ _ _ hdv]
      obtain ⟨cv, hcv⟩ := getKey_some_of_hasKey hck
      rw [hcv]
      rfl
    · rw [getKey_spreadMerge_not_left _ _ _ (eq_false_of_ne_true hdk)]
  · intro k h1 h2 h3 h4 hck hdk
    rw [getKey_normalize_other c _ k h1 h2 h3 h4]
    obtain ⟨dv, hdv⟩ := getKey_some_of_hasKey hdk
    rw [getKey_spreadMerge_left _ _ _ _ hdv, getKey_none_of_hasKey_false hck, hdv]
    rfl

/-- Witness for the amended C4 on the newer-release fixture; the unknown
extra field survives unchanged. -/
theorem c4_newer_version_no_migration_amended_witness :
    CONFIG_SCHEMA_VERSION < inferSchemaVersion newerConfigFixture ∧
    migrateVersionedConfig newerConfigFixture = Except.ok
      { migratedConfig :=
          normalizeConfigObject newerConfigFixture (inferSchemaVersion newerConfigFixture)
      , wasMigrated := false
      , startedFrom := inferSchemaVersion newerConfigFixture } ∧
    getKey (normalizeConfigObject newerConfigFixture
        (inferSchemaVersion newerConfigFixture)) "wallpaper"
      = getKey newerConfigFixture "wallpaper" :=
  ⟨by decide,
   (c4_newer_version_no_migration_amended newerConfigFixture (by decide)).1,
   (c4_newer_version_no_migration_amended newerConfigFixture (by decide)).2.2.1
     "wallpaper" (by decide) (by decide) (by decide) (by decide) (by decide)⟩

/-- C5: the claim (and the repo's feature-flag rollout doc) requires
`unsupportedReason` to be populated whenever `supportedOnHost` is false.
On a macOS Apple Silicon host with the experimental flag enabled the
capability record for the QEMU Native runtime has `supportedOnHost =
false` (the runtime-kinds list never includes it on darwin) while
`unsupportedReason` is `undefined` (none) — the invariant is broken on the
exact configuration the docs say should expose the runtime. -/
theorem c5_unsupported_reason_missing :
    (getRuntimeCapabilities macNativeFlagEnv RuntimeKind.QEMU_NATIVE
        (getHostProfile macNativeFlagEnv)).supportedOnHost = false ∧
    (getRuntimeCapabilities macNativeFlagEnv RuntimeKind.QEMU_NATIVE
        (getHostProfile macNativeFlagEnv)).unsupportedReason = none ∧
    isExperimentalMacNativeRuntimeEnabled macNativeFlagEnv = true ∧
    (getHostProfile macNativeFlagEnv).isAppleSilicon = true :=
  ⟨rfl, rfl, rfl, rfl⟩

/-- C6 counterexample: a present PID file whose content does not parse to
a PID makes `#stopVM` a silent no-op — no SIGTERM is attempted and the
file is not removed — contradicting the claim that a present PID file
always leads to the terminate sequence and to the file's removal. -/
theorem c6_unparsable_pidfile_noop_cex :
    qemuBadPidFixture.pidFile ≠ none ∧
    qemuStopVM { termKillOk := true, diesWithinGrace := false } qemuBadPidFixture
      = (qemuBadPidFixture, []) ∧
    (qemuStopVM { termKillOk := true, diesWithinGrace := false } qemuBadPidFixture).1.pidFile
      = some none :=
  ⟨by simp [qemuBadPidFixture], rfl, rfl⟩

/-- C6 amended: stop is a no-op when the PID file is absent or its content
does not parse to a positive PID (the file is then left in place);
otherwise SIGTERM is sent when deliverable, liveness is polled up to the
bounded grace timeout, SIGKILL is sent exactly when the process survives
the grace period, and the PID file is removed in the graceful, forced and
already-dead paths alike. -/
theorem c6_stop_sequence_amended (env : QemuStopEnv) (s : QemuState) :
    (qemuReadPid s = none → qemuStopVM env s = (s, [])) ∧
    (∀ pid, qemuReadPid s = some pid →
      (qemuStopVM env s).1.pidFile = none ∧
      (env.termKillOk = true → QemuAction.sigterm pid ∈ (qemuStopVM env s).2) ∧
      (env.termKillOk = true → env.diesWithinGrace = false →
        QemuAction.sigkill pid ∈ (qemuStopVM env s).2) ∧
      (env.diesWithinGrace = true → QemuAction.sigkill pid ∉ (qemuStopVM env s).2) ∧
      QemuAction.removePidFile ∈ (qemuStopVM env s).2) := by
  constructor
  · intro h
    unfold qemuStopVM
    rw [h]
  · intro pid h
    have hq : qemuStopVM env s
        = ({ s with
              alive := fun q => if q == pid then false else s.alive q,
              pidFile := none },
          killPidWithGrace env pid ++ [QemuAction.removePidFile]) := by
      unfold qemuStopVM
      rw [h]
    rw [hq]
    refine ⟨rfl, ?_, ?_, ?_, ?_⟩
    · intro ht
      by_cases hd : env.diesWithinGrace
      · simp [killPidWithGrace, ht, hd]
      · simp [killPidWithGrace, ht, hd]
    · intro ht hd
      simp [killPidWithGrace, ht, hd]
    · intro hd
      by_cases ht : env.termKillOk
      · simp [killPidWithGrace, ht, hd]
      · simp [killPidWithGrace, ht]
    · by_cases ht : env.termKillOk
      · by_cases hd : env.diesWithinGrace
        · simp [killPidWithGrace, ht, hd]
        · simp [killPidWithGrace, ht, hd]
      · simp [killPidWithGrace, ht]

/-- Witness for the amended C6: a process that ignores SIGTERM is
SIGKILLed and the PID file is removed; the bad-PID state is a no-op. -/
theorem c6_stop_sequence_amended_witness :
    qemuReadPid qemuRunningFixture = some 42 ∧
    (qemuStopVM { termKillOk := true, diesWithinGrace := false } qemuRunningFixture).1.pidFile
      = none ∧
    QemuAction.sigkill 42
      ∈ (qemuStopVM { termKillOk := true, diesWithinGrace := false } qemuRunningFixture).2 ∧
    QemuAction.removePidFile
      ∈ (qemuStopVM { termKillOk := true, diesWithinGrace := false } qemuRunningFixture).2 := by
  have h := (c6_stop_sequence_amended
    { termKillOk := true, diesWithinGrace := false } qemuRunningFixture).2 42 rfl
  exact ⟨rfl, h.1, h.2.2.1 rfl rfl, h.2.2.2.2⟩

/-- C7: calling `#startVM` while the instance is RUNNING is a complete
no-op — the state (including the PID file) is returned unchanged and the
action trace is empty, so no second hypervisor process is spawned. -/
theorem c7_second_start_noop (env : QemuStartEnv) (s : QemuState)
    (h : qemuGetStatus s = ContainerStatus.RUNNING) :
    qemuStartVM env s = Except.ok (s, []) := by
  unfold qemuStartVM
  rw [h]
  rfl

/-- Witness for C7 on a running fixture. -/
theorem c7_second_start_noop_witness :
    qemuGetStatus qemuRunningFixture = ContainerStatus.RUNNING ∧
    qemuStartVM { resolveOk := true, childPid := 100 } qemuRunningFixture
      = Except.ok (qemuRunningFixture, []) :=
  ⟨rfl, c7_second_start_noop { resolveOk := true, childPid := 100 } qemuRunningFixture rfl⟩

/-- C8: migrating any schema-version-0 config through the engine (v0 → v1
→ v2 plus final normalization) yields exactly the config obtained by
normalizing the directly built "already at the current version with
equivalent field values" config; feeding that equivalent config to the
engine reproduces the same result with no migration flagged. -/
theorem c8_v0_chain_matches_current_normalization (c : ConfigRecord)
    (h : inferSchemaVersion c = 0) :
    (migrateVersionedConfig c).map (fun r => r.migratedConfig)
      = Except.ok (normalizeConfigObject (equivalentCurrentConfig c) CONFIG_SCHEMA_VERSION) ∧
    (migrateVersionedConfig (equivalentCurrentConfig c)).map (fun r => r.migratedConfig)
      = Except.ok (normalizeConfigObject (equivalentCurrentConfig c) CONFIG_SCHEMA_VERSION) ∧
    (migrateVersionedConfig c).map (fun r => r.wasMigrated) = Except.ok true ∧
    (migrateVersionedConfig (equivalentCurrentConfig c)).map (fun r => r.wasMigrated)
      = Except.ok false := by
  have h1 := migrateVersionedConfig_v0 c h
  have h2 := migrateVersionedConfig_at_current (equivalentCurrentConfig c)
    (inferSchemaVersion_equiv c)
  refine ⟨?_, ?_, ?_, ?_⟩
  · rw [h1]
    simp only [Except.map]
    exact congrArg Except.ok (chain_eq_equivalent c)
  · rw [h2]
    rfl
  · rw [h1]
    rfl
  · rw [h2]
    rfl

/-- Witness for C8 on a legacy v0 fixture. -/
theorem c8_v0_chain_matches_current_normalization_witness :
    inferSchemaVersion v0ConfigFixture = 0 ∧
    (migrateVersionedConfig v0ConfigFixture).map (fun r => r.migratedConfig)
      = Except.ok (normalizeConfigObject (equivalentCurrentConfig v0ConfigFixture)
          CONFIG_SCHEMA_VERSION) ∧
    (migrateVersionedConfig v0ConfigFixture).map (fun r => r.wasMigrated)
      = Except.ok true :=
  ⟨rfl,
   (c8_v0_chain_matches_current_normalization v0ConfigFixture rfl).1,
   (c8_v0_chain_matches_current_normalization v0ConfigFixture rfl).2.2.1⟩

/-- C9: `remove()` never lets the engine error escape on any backend —
every exec outcome yields a normal return (errors are only logged), so
calling it twice on an absent instance throws on neither call; the native
backend's remove is the identity on a state without a PID file, hence
trivially idempotent. -/
theorem c9_remove_idempotent_never_throws :
    (∀ e : Except String String, ∃ logs, dockerRemove e = Except.ok logs) ∧
    (∀ e : Except String String, ∃ logs, podmanRemove e = Except.ok logs) ∧
    (∀ msg : String,
      dockerRemove (Except.error msg)
        = Except.ok ["Failed to remove container 'WinBoat'", msg] ∧
      podmanRemove (Except.error msg)
        = Except.ok ["Failed to remove container 'WinBoat'", msg]) ∧
    (∀ (env : QemuStopEnv) (alive : Int → Bool) (b1 b2 b3 : Bool),
      qemuRemove env (QemuState.mk none alive b1 b2 b3)
        = (QemuState.mk none alive b1 b2 b3, [])) := by
  refine ⟨?_, ?_, ?_, ?_⟩
  · intro e
    cases e with
    | ok v => exact ⟨[], rfl⟩
    | error msg => exact ⟨_, rfl⟩
  · intro e
    cases e with
    | ok v => exact ⟨[], rfl⟩
    | error msg => exact ⟨_, rfl⟩
  · intro msg
    exact ⟨rfl, rfl⟩
  · intro env alive b1 b2 b3
    rfl

/-- C10: on every construction of the config owner, whatever record the
read path produced, the loaded config's `guestArch` ends up equal to the
preferred guest architecture of its configured container runtime (arm64
exactly for the QEMU-native token, amd64 otherwise) — any different
persisted value is overwritten. -/
theorem c10_guest_arch_forced_to_preferred (now : Nat) (fs : ConfigFs) :
    getKey (winboatConfigLoad now fs).2 "guestArch"
      = some (JVal.str (preferredGuestArchOfRecord (winboatConfigLoad now fs).2)) := by
  simp only [winboatConfigLoad]
  rw [getKey_bumpSchemaVersion_other _ _ (by decide), getKey_forceGuestArch_ga,
    preferred_bumpSchemaVersion, preferred_forceGuestArch]

end Winboat
